import Mathlib

/-!
Shallow embedding of the Amazon category-rank monitor (src/app.py, with the
equivalent pipeline in src/main.py), covering the rank resolver
(fetch_ranking_for_product and its helpers), the category-name lookup
(get_category_name), the persistence adapter (save_ranking_data), the Slack
notifier (send_slack_notification) and the orchestrator (fetch_all_rankings).

Provider responses are modelled as data supplied through an environment; each
embedded API function also reports the list of HTTP requests it issues, so
that call-count properties can be stated.
-/

namespace AmazonRank

/-- A category key as delivered by the provider: JSON numbers and strings are
both observed, mirroring the int-vs-str keys discussed in the source. -/
inductive JKey where
  | kInt (n : Int)
  | kStr (s : String)
deriving DecidableEq, Repr

/-- Python str() applied to a category key, as done by the code
(cat_id = str(cat_id)). -/
def keyStr : JKey → String
  | .kInt n => toString n
  | .kStr s => s

/-- One entry of the categoryTree field of a product response; name is absent
when the provider omits it. -/
structure TreeItem where
  catId : JKey
  name : Option String
deriving DecidableEq, Repr

/-- The dictionary built by get_product_info from a successful provider
response. -/
structure ProductInfo where
  title : String
  categories : List JKey
  categoryTree : List TreeItem
  salesRanks : List (JKey × Int)
deriving DecidableEq, Repr

/-- Outcome of one category-name HTTP request: a transport error (exception or
timeout), or a JSON body whose categories table may be absent, and whose
entries may lack a name. -/
inductive NameResp where
  | provErr
  | resp (cats : Option (List (String × Option String)))
deriving DecidableEq, Repr

/-- One HTTP request issued against the provider. -/
inductive Req where
  | product (asin : String)
  | category (cid : String)
  | bestsellers (cid : String)
deriving DecidableEq, Repr

/-- The provider, as seen through the three endpoints the code calls. -/
structure Env where
  productResp : String → Option ProductInfo
  categoryResp : String → NameResp
  bestsellersResp : String → Option (List String)

/-- The placeholder name synthesized by get_category_name. -/
def placeholder (cid : String) : String := "カテゴリ" ++ cid

/-- get_product_info: one product request; any error, missing product or
timeout is None. -/
def get_product_info (env : Env) (asin : String) : Option ProductInfo × List Req :=
  (env.productResp asin, [Req.product asin])

/-- get_category_name: one category request; returns the name from the
response or the placeholder, and never raises. -/
def get_category_name (env : Env) (cid : String) : String × List Req :=
  (match env.categoryResp cid with
   | .provErr => placeholder cid
   | .resp none => placeholder cid
   | .resp (some cats) =>
     match cats.lookup cid with
     | some (some nm) => nm
     | some none => placeholder cid
     | none => placeholder cid,
   [Req.category cid])

/-- get_bestseller_ranking: one bestsellers request; the 1-based index of the
target asin in the asinList, None when absent or on error. -/
def get_bestseller_ranking (env : Env) (cid asin : String) : Option Nat × List Req :=
  (match env.bestsellersResp cid with
   | some asinList =>
     match asinList.findIdx? (· == asin) with
     | some i => some (i + 1)
     | none => none
   | none => none,
   [Req.bestsellers cid])

/-- The category-name resolution used inside fetch_ranking_for_product: scan
categoryTree for the first item whose str(catId) matches, fall back to
get_category_name when the match is missing or its name is falsy. -/
def resolveName (env : Env) (tree : List TreeItem) (cid : String) : String × List Req :=
  match tree.find? (fun t => keyStr t.catId == cid) with
  | some t =>
    match t.name with
    | some nm => if nm = "" then get_category_name env cid else (nm, [])
    | none => get_category_name env cid
  | none => get_category_name env cid

/-- One row appended to the results list of fetch_ranking_for_product. -/
structure Obs where
  date : String
  asin : String
  title : String
  category_id : String
  category_name : String
  rank : Int
  source : String
deriving DecidableEq, Repr

/-- Body of the first loop of fetch_ranking_for_product, for one candidate
category id. -/
def detailedStep (env : Env) (asin title now : String) (tree : List TreeItem)
    (acc : List Obs × List Req) (catId : JKey) : List Obs × List Req :=
  let cid := keyStr catId
  let nm := resolveName env tree cid
  let rk := get_bestseller_ranking env cid asin
  match rk.1 with
  | some r =>
    (acc.1 ++ [{ date := now, asin := asin, title := title, category_id := cid,
                 category_name := nm.1, rank := (r : Int), source := "bestsellers" }],
     acc.2 ++ nm.2 ++ rk.2)
  | none => (acc.1, acc.2 ++ nm.2 ++ rk.2)

/-- The first (bestsellers) pass: loop over list(reversed(categories[:5])). -/
def detailedPass (env : Env) (asin title now : String) (info : ProductInfo) :
    List Obs × List Req :=
  if info.categories.isEmpty then ([], [])
  else ((info.categories.take 5).reverse).foldl
    (detailedStep env asin title now info.categoryTree) ([], [])

/-- Body of the second loop of fetch_ranking_for_product, for one
(categoryId, aggregate rank) entry of salesRanks. -/
def aggStep (env : Env) (asin title now : String) (tree : List TreeItem)
    (acc : List Obs × List Req) (kv : JKey × Int) : List Obs × List Req :=
  let cid := keyStr kv.1
  if acc.1.any (fun r => r.category_id == cid) then acc
  else
    let nm := resolveName env tree cid
    if kv.2 > 0 then
      (acc.1 ++ [{ date := now, asin := asin, title := title, category_id := cid,
                   category_name := nm.1, rank := kv.2, source := "salesRank" }],
       acc.2 ++ nm.2)
    else (acc.1, acc.2 ++ nm.2)

/-- The second (salesRank fallback) pass, continuing from the accumulated
results of the first pass. -/
def aggPass (env : Env) (asin title now : String) (info : ProductInfo)
    (acc : List Obs × List Req) : List Obs × List Req :=
  if info.salesRanks.isEmpty then acc
  else info.salesRanks.foldl (aggStep env asin title now info.categoryTree) acc

/-- Both passes of fetch_ranking_for_product over an already-fetched product
record. -/
def resolveObs (env : Env) (asin now : String) (info : ProductInfo) :
    List Obs × List Req :=
  aggPass env asin info.title now info (detailedPass env asin info.title now info)

/-- The value returned by fetch_ranking_for_product on success. -/
structure FetchResult where
  title : String
  asin : String
  results : List Obs
deriving DecidableEq, Repr

/-- fetch_ranking_for_product: fetch the metadata, then run both passes. -/
def fetch_ranking_for_product (env : Env) (asin now : String) :
    Option FetchResult × List Req :=
  match get_product_info env asin with
  | (none, reqs) => (none, reqs)
  | (some info, reqs) =>
    let body := resolveObs env asin now info
    (some { title := info.title, asin := asin, results := body.1 }, reqs ++ body.2)

/-- A JSON-ish value as stored by the persistence layer. -/
inductive Val where
  | str (s : String)
  | int (n : Int)
deriving DecidableEq, Repr

/-- The dictionary form of one result row, with the keys in the order the code
builds them. -/
def obsDict (r : Obs) : List (String × Val) :=
  [("date", Val.str r.date), ("asin", Val.str r.asin), ("title", Val.str r.title),
   ("category_id", Val.str r.category_id), ("category_name", Val.str r.category_name),
   ("rank", Val.int r.rank), ("source", Val.str r.source)]

/-- save_ranking_data: the rows handed to the insert, after the comprehension
that drops the source key from every row. -/
def save_ranking_data (results : List Obs) : List (List (String × Val)) :=
  results.map (fun r => (obsDict r).filter (fun kv => kv.1 != "source"))

/-- The tier emoji chosen per rendered line of the Slack digest. -/
def rankEmoji (rank : Int) : String :=
  if rank ≤ 10 then "🥇" else if rank ≤ 50 then "🥈"
  else if rank ≤ 100 then "🥉" else "📍"

/-- Digit grouping in threes, operating on a reversed digit list. -/
def chunk3 : List Char → List (List Char)
  | [] => []
  | [a] => [[a]]
  | [a, b] => [[a, b]]
  | a :: b :: c :: rest => [a, b, c] :: chunk3 rest

/-- Python format(n, ",") for a natural number. -/
def commaNat (n : Nat) : String :=
  ⟨((chunk3 (toString n).data.reverse).intersperse [',']).flatten.reverse⟩

/-- Python f-string thousands formatting for the int ranks the code prints. -/
def commaFmt (i : Int) : String :=
  if i < 0 then "-" ++ commaNat i.natAbs else commaNat i.toNat

/-- One rendered ranking line of the digest. -/
def obsLine (r : Obs) : String :=
  rankEmoji r.rank ++ " " ++ r.category_name ++ ": *" ++ commaFmt r.rank ++ "位*"

/-- One per-product group in the notifier: the by_product dict entry. -/
structure ProdGroup where
  asin : String
  title : String
  rankings : List Obs
deriving DecidableEq, Repr

/-- One step of building the by_product dict. -/
def groupStep (acc : List ProdGroup) (r : Obs) : List ProdGroup :=
  if acc.any (fun g => g.asin == r.asin) then
    acc.map (fun g =>
      if g.asin == r.asin then { g with rankings := g.rankings ++ [r] } else g)
  else acc ++ [{ asin := r.asin, title := r.title, rankings := [r] }]

/-- The by_product grouping of send_slack_notification (insertion-ordered
dict keyed by asin). -/
def by_product (all_results : List Obs) : List ProdGroup :=
  all_results.foldl groupStep []

/-- The 45-character title truncation of the notifier. -/
def truncTitle (t : String) : String :=
  if t.length > 45 then (t.take 45) ++ "..." else t

/-- The lines of one product section of the digest. -/
def groupLines (g : ProdGroup) : List String :=
  ["*" ++ truncTitle g.title ++ "*",
   "<https://www.amazon.co.jp/dp/" ++ g.asin ++ "|Amazon>", ""]
  ++ g.rankings.map obsLine

/-- One Slack block of the digest payload. -/
inductive Block where
  | header (text : String)
  | divider
  | sec (text : String)
deriving DecidableEq, Repr

/-- The blocks list built by send_slack_notification. -/
def buildBlocks (all_results : List Obs) (headerTime : String) : List Block :=
  (by_product all_results).foldl
    (fun bs g =>
      bs ++ [Block.divider, Block.sec (String.intercalate "\n" (groupLines g))])
    [Block.header ("📊 ランキングレポート (" ++ headerTime ++ ")")]

/-- send_slack_notification: returns the posted payload, or none when the
early return fires (missing webhook or empty results). The df_history
argument is the history the caller passes in. -/
def send_slack_notification (webhook_url : String) (all_results : List Obs)
    (df_history : List Obs) (headerTime : String) : Option (List Block) :=
  if webhook_url = "" then none
  else if all_results = [] then none
  else some (buildBlocks all_results headerTime)

/-- One tracked product, as loaded from the product store. -/
structure Product where
  asin : String
  title : String
deriving DecidableEq, Repr

/-- The credential and webhook configuration. -/
structure Config where
  api_key : String
  slack_url : String
deriving DecidableEq, Repr

/-- The mutable state of the orchestrator loop: accumulated observations, the
success and failure counters, and the provider requests issued so far. -/
structure LoopState where
  all_results : List Obs
  successCount : Nat
  failCount : Nat
  reqs : List Req
deriving DecidableEq, Repr

/-- One iteration of the fetch_all_rankings loop. -/
def processProduct (env : Env) (now : String) (st : LoopState) (p : Product) :
    LoopState :=
  if p.asin = "" then st
  else
    let fr := fetch_ranking_for_product env p.asin now
    match fr.1 with
    | some res =>
      if res.results.isEmpty then
        { st with failCount := st.failCount + 1, reqs := st.reqs ++ fr.2 }
      else
        { st with all_results := st.all_results ++ res.results,
                  successCount := st.successCount + 1, reqs := st.reqs ++ fr.2 }
    | none => { st with failCount := st.failCount + 1, reqs := st.reqs ++ fr.2 }

/-- The observable outcome of one fetch_all_rankings run: the returned results,
the success and failure counters it logs, the rows handed to the persistence
insert, the notification payload, and every provider request issued. -/
structure RunOutcome where
  results : List Obs
  successCount : Nat
  failCount : Nat
  saved : List (List (String × Val))
  notification : Option (List Block)
  reqs : List Req
deriving DecidableEq, Repr

/-- The outcome of the early-return branches of fetch_all_rankings. -/
def idleOutcome : RunOutcome :=
  { results := [], successCount := 0, failCount := 0, saved := [],
    notification := none, reqs := [] }

/-- fetch_all_rankings: the orchestrator over the tracked products. -/
def fetch_all_rankings (env : Env) (cfg : Config) (products : List Product)
    (df : List Obs) (now headerTime : String) : RunOutcome :=
  if cfg.api_key = "" then idleOutcome
  else if products = [] then idleOutcome
  else
    let st := products.foldl (processProduct env now)
      { all_results := [], successCount := 0, failCount := 0, reqs := [] }
    { results := st.all_results,
      successCount := st.successCount,
      failCount := st.failCount,
      saved := if st.all_results = [] then [] else save_ranking_data st.all_results,
      notification := if st.all_results = [] then none
                      else send_slack_notification cfg.slack_url st.all_results df headerTime,
      reqs := st.reqs }

/-- Modelled from the spec (4.1 step 3): the candidate ids the spec asks for,
the last at most five entries of the category list, reversed. -/
def specCandidates (categories : List JKey) : List String :=
  (categories.reverse.take 5).map keyStr

/-- First-seen deduplication relative to an already-seen set. -/
def firstSeenFrom (seen : List String) : List String → List String
  | [] => []
  | a :: rest =>
    if a ∈ seen then firstSeenFrom seen rest
    else a :: firstSeenFrom (seen ++ [a]) rest

/-- The distinct elements of a list in first-seen order. -/
def firstSeen (l : List String) : List String := firstSeenFrom [] l

/-- The observation the first loop body would append for one candidate key,
when the bestseller lookup finds the asin. -/
def detailedObsOf (env : Env) (asin title now : String) (tree : List TreeItem)
    (k : JKey) : Option Obs :=
  match (get_bestseller_ranking env (keyStr k) asin).1 with
  | some r =>
    some { date := now, asin := asin, title := title, category_id := keyStr k,
           category_name := (resolveName env tree (keyStr k)).1,
           rank := (r : Int), source := "bestsellers" }
  | none => none

/-- The observation the second loop body appends for one salesRanks entry
that survives the dedup check and the positivity check. -/
def aggObsOf (env : Env) (asin title now : String) (tree : List TreeItem)
    (kv : JKey × Int) : Obs :=
  { date := now, asin := asin, title := title, category_id := keyStr kv.1,
    category_name := (resolveName env tree (keyStr kv.1)).1,
    rank := kv.2, source := "salesRank" }

/-- Whether the orchestrator loop counts a product as failed: resolution
returned None, or it returned an empty results list. -/
def productFails (env : Env) (now : String) (p : Product) : Bool :=
  match (fetch_ranking_for_product env p.asin now).1 with
  | some res => res.results.isEmpty
  | none => true

/-- The observations one product contributes to the accumulator. -/
def productResults (env : Env) (now : String) (p : Product) : List Obs :=
  match (fetch_ranking_for_product env p.asin now).1 with
  | some res => res.results
  | none => []

/-- Recursive characterisation of the by_product groups created for
observations whose asin is not yet a dict key. -/
def groupNew (seen : List String) : List Obs → List ProdGroup
  | [] => []
  | r :: rest =>
    if r.asin ∈ seen then groupNew seen rest
    else { asin := r.asin, title := r.title,
           rankings := r :: rest.filter (fun x => x.asin == r.asin) }
         :: groupNew (seen ++ [r.asin]) rest

/-- Category-name requests among a request list. -/
def isCategoryReq : Req → Bool
  | .category _ => true
  | _ => false

/-- The fresh by_product entry opened for an observation with an unseen asin. -/
def newGroup (r : Obs) : ProdGroup :=
  { asin := r.asin, title := r.title, rankings := [r] }

/-- Canonicalising a provider key to its string form. -/
def normKey (k : JKey) : JKey := .kStr (keyStr k)

/-- Canonicalising the key of a category-tree item. -/
def normTree (t : TreeItem) : TreeItem := { t with catId := normKey t.catId }

/-- A product record with every category key replaced by its string form. -/
def normInfo (info : ProductInfo) : ProductInfo :=
  { info with categories := info.categories.map normKey,
              categoryTree := info.categoryTree.map normTree,
              salesRanks := info.salesRanks.map (fun kv => (normKey kv.1, kv.2)) }

/-! Concrete fixtures used by counterexamples and witnesses. -/

/-- A product whose category list has six entries. -/
def info6 : ProductInfo :=
  { title := "T", categories := [.kInt 1, .kInt 2, .kInt 3, .kInt 4, .kInt 5, .kInt 6],
    categoryTree := [], salesRanks := [] }

/-- A provider on which every bestseller list contains the target asin. -/
def env1 : Env :=
  { productResp := fun _ => some info6,
    categoryResp := fun _ => .provErr,
    bestsellersResp := fun _ => some ["ASIN1"] }

/-- A current-run observation at rank 30. -/
def obsCur : Obs :=
  { date := "2026-10-12 09:00", asin := "ASIN1", title := "T",
    category_id := "100", category_name := "Home Fragrance", rank := 30,
    source := "bestsellers" }

/-- A stored observation for the same product and category, dated the previous
calendar day, at rank 50. -/
def obsPrev : Obs :=
  { date := "2026-10-11 09:00", asin := "ASIN1", title := "T",
    category_id := "100", category_name := "Home Fragrance", rank := 50,
    source := "bestsellers" }

/-- A product whose category list repeats the same id. -/
def infoDup : ProductInfo :=
  { title := "T", categories := [.kStr "100", .kStr "100"],
    categoryTree := [{ catId := .kStr "100", name := some "Cat" }], salesRanks := [] }

/-- A provider for the duplicated-category product. -/
def envDup : Env :=
  { productResp := fun _ => some infoDup,
    categoryResp := fun _ => .provErr,
    bestsellersResp := fun _ => some ["ASIN1"] }

/-- A product mixing detailed candidates and aggregate entries. -/
def infoN : ProductInfo :=
  { title := "T", categories := [.kInt 1, .kInt 2], categoryTree := [],
    salesRanks := [(.kInt 2, 5), (.kInt 3, 7), (.kInt 4, 0)] }

/-- A provider whose bestseller list contains the asin only for category 1. -/
def envN : Env :=
  { productResp := fun _ => some infoN,
    categoryResp := fun _ => .provErr,
    bestsellersResp := fun c => if c = "1" then some ["ASIN1"] else some ["OTHER"] }

/-- The aggregate observation produced for category 3 of infoN. -/
def oC3 : Obs :=
  { date := "n", asin := "ASIN1", title := "T", category_id := "3",
    category_name := placeholder "3", rank := 7, source := "salesRank" }

/-- A product whose metadata fetch succeeds but yields no observation. -/
def info0 : ProductInfo :=
  { title := "T4", categories := [], categoryTree := [], salesRanks := [] }

/-- A provider resolving every asin to the observation-free product. -/
def env4 : Env :=
  { productResp := fun _ => some info0,
    categoryResp := fun _ => .provErr,
    bestsellersResp := fun _ => none }

/-- A configuration with a credential. -/
def cfg4 : Config := { api_key := "k", slack_url := "" }

/-- A product record yielding one detailed observation for asin A. -/
def infoA : ProductInfo :=
  { title := "TA", categories := [.kStr "c"],
    categoryTree := [{ catId := .kStr "c", name := some "C" }], salesRanks := [] }

/-- A provider on which asin A resolves and asin B is unknown. -/
def envW4 : Env :=
  { productResp := fun a => if a = "A" then some infoA else none,
    categoryResp := fun _ => .provErr,
    bestsellersResp := fun _ => some ["A"] }

/-- A configuration with a credential and a webhook. -/
def cfgW4 : Config := { api_key := "k", slack_url := "https://w" }

/-- Tracked product A. -/
def pA : Product := { asin := "A", title := "" }

/-- Tracked product B. -/
def pB : Product := { asin := "B", title := "" }

/-- A product with twelve aggregate entries, no category list and no tree. -/
def info12 : ProductInfo :=
  { title := "T", categories := [], categoryTree := [],
    salesRanks := [(.kStr "c1", 1), (.kStr "c2", 2), (.kStr "c3", 3), (.kStr "c4", 4),
                   (.kStr "c5", 5), (.kStr "c6", 6), (.kStr "c7", 7), (.kStr "c8", 8),
                   (.kStr "c9", 9), (.kStr "c10", 10), (.kStr "c11", 11), (.kStr "c12", 12)] }

/-- A provider that fails every request. -/
def envErr : Env :=
  { productResp := fun _ => none,
    categoryResp := fun _ => .provErr,
    bestsellersResp := fun _ => none }

/-- A configuration with no credential. -/
def cfgNoKey : Config := { api_key := "", slack_url := "https://w" }

/-- A provider naming category 42. -/
def envNamed : Env :=
  { productResp := fun _ => none,
    categoryResp := fun _ => .resp (some [("42", some "Nice")]),
    bestsellersResp := fun _ => none }

/-- An observation carrying a source tag, for the persistence claims. -/
def obs8 : Obs :=
  { date := "2026-10-12 09:00", asin := "A8", title := "T8", category_id := "500",
    category_name := "N8", rank := 7, source := "bestsellers" }

/-- A second observation with the salesRank source tag. -/
def obs8w : Obs :=
  { date := "2026-10-12 10:00", asin := "A9", title := "T9", category_id := "501",
    category_name := "N9", rank := 120, source := "salesRank" }

/-- The row save_ranking_data produces for obs8w. -/
def row8w : List (String × Val) :=
  [("date", Val.str "2026-10-12 10:00"), ("asin", Val.str "A9"),
   ("title", Val.str "T9"), ("category_id", Val.str "501"),
   ("category_name", Val.str "N9"), ("rank", Val.int 120)]

/-- Digest input: first observation of product A. -/
def o9a : Obs :=
  { date := "d", asin := "A", title := "TA", category_id := "1",
    category_name := "CatA1", rank := 3, source := "bestsellers" }

/-- Digest input: observation of product B. -/
def o9b : Obs :=
  { date := "d", asin := "B", title := "TB", category_id := "2",
    category_name := "CatB", rank := 70, source := "salesRank" }

/-- Digest input: second observation of product A. -/
def o9c : Obs :=
  { date := "d", asin := "A", title := "TA", category_id := "3",
    category_name := "CatA2", rank := 400, source := "salesRank" }

/-- A digest input interleaving two products. -/
def res9 : List Obs := [o9a, o9b, o9c]

/-- A product mixing an integer category key with its string twin. -/
def infoMix : ProductInfo :=
  { title := "T", categories := [.kInt 100], categoryTree := [],
    salesRanks := [(.kStr "100", 3)] }

/-- A provider on which the mixed-key product resolves in category 100. -/
def envMix : Env :=
  { productResp := fun _ => some infoMix,
    categoryResp := fun _ => .provErr,
    bestsellersResp := fun _ => some ["A"] }

/-- The single observation the mixed-key product yields. -/
def oMix : Obs :=
  { date := "n", asin := "A", title := "T", category_id := "100",
    category_name := placeholder "100", rank := 1, source := "bestsellers" }

/-! Theorems. -/

/-- Claim C1. The spec asks for the last at most five entries of the category
list, reversed; the code slices the first five (categories[:5]) before
reversing, contradicting its own comment that the tail of the list is used.
On a six-entry category list the resolver attempts detailed lookups for the
reversed first five ids, not the reversed last five. -/
theorem C1_code_divergence :
    (resolveObs env1 "ASIN1" "2026-10-12 00:00" info6).1.map (fun o => o.category_id)
      = ["5", "4", "3", "2", "1"]
    ∧ specCandidates info6.categories = ["6", "5", "4", "3", "2"]
    ∧ (resolveObs env1 "ASIN1" "2026-10-12 00:00" info6).1.map (fun o => o.category_id)
      ≠ specCandidates info6.categories := by decide

/-- Claim C2, counterexample. With a stored observation for the same
(identifier, categoryId) dated the previous calendar day (rank 50 against
current rank 30), the notifier renders exactly the same digest as with an
empty history, and the rendered line for the observation is the bare badge,
category name and rank, with no up/down/unchanged annotation. -/
theorem C2_counterexample :
    send_slack_notification "https://hooks.example/w" [obsCur] [obsPrev] "10/12 09:00"
      = send_slack_notification "https://hooks.example/w" [obsCur] [] "10/12 09:00"
    ∧ buildBlocks [obsCur] "10/12 09:00"
      = [Block.header "📊 ランキングレポート (10/12 09:00)", Block.divider,
         Block.sec "*T*\n<https://www.amazon.co.jp/dp/ASIN1|Amazon>\n\n🥈 Home Fragrance: *30位*"]
    ∧ obsPrev.asin = obsCur.asin ∧ obsPrev.category_id = obsCur.category_id
    ∧ obsPrev.date = "2026-10-11 09:00" ∧ obsCur.date = "2026-10-12 09:00"
    ∧ obsPrev.rank = 50 ∧ obsCur.rank = 30 := by decide

/-- Claim C2, amended. The notifier never computes a prior-day delta: the
history argument has no effect on the rendered digest, so no observation line
ever carries an up/down/unchanged annotation. -/
theorem C2_amended (webhook_url : String) (all_results hist hist' : List Obs)
    (headerTime : String) :
    send_slack_notification webhook_url all_results hist headerTime
      = send_slack_notification webhook_url all_results hist' headerTime := rfl

/-- Claim C6. With no credential or an empty tracked-product set, the run
returns the empty report at once: no results, zero counters, nothing passed
to persistence, no notification, and no provider request issued. -/
theorem C6_idle (env : Env) (cfg : Config) (products : List Product) (df : List Obs)
    (now headerTime : String) (h : cfg.api_key = "" ∨ products = []) :
    (fetch_all_rankings env cfg products df now headerTime).results = []
    ∧ (fetch_all_rankings env cfg products df now headerTime).successCount = 0
    ∧ (fetch_all_rankings env cfg products df now headerTime).failCount = 0
    ∧ (fetch_all_rankings env cfg products df now headerTime).saved = []
    ∧ (fetch_all_rankings env cfg products df now headerTime).notification = none
    ∧ (fetch_all_rankings env cfg products df now headerTime).reqs = [] := by
  have hidle : fetch_all_rankings env cfg products df now headerTime = idleOutcome := by
    unfold fetch_all_rankings
    rcases h with h | h
    · rw [if_pos h]
    · by_cases hk : cfg.api_key = ""
      · rw [if_pos hk]
      · rw [if_neg hk, if_pos h]
  rw [hidle]
  exact ⟨rfl, rfl, rfl, rfl, rfl, rfl⟩

/-- Witness for C6_idle at a concrete credential-less configuration. -/
theorem C6_idle_witness :
    (fetch_all_rankings envErr cfgNoKey [pA] [] "n" "h").reqs = []
    ∧ (fetch_all_rankings envErr cfgNoKey [pA] [] "n" "h").notification = none :=
  ⟨(C6_idle envErr cfgNoKey [pA] [] "n" "h" (Or.inl rfl)).2.2.2.2.2,
   (C6_idle envErr cfgNoKey [pA] [] "n" "h" (Or.inl rfl)).2.2.2.2.1⟩

/-- Claim C7. For every provider outcome the name lookup returns a string:
the provider name when the response carries one for the id, otherwise the
synthesized placeholder built from the id; the embedding is total, so no
outcome escapes to the caller. -/
theorem C7_name_lookup (env : Env) (cid : String) :
    ((get_category_name env cid).1 = placeholder cid
      ∨ ∃ cats, env.categoryResp cid = NameResp.resp (some cats)
          ∧ cats.lookup cid = some (some ((get_category_name env cid).1)))
    ∧ (∀ cats nm, env.categoryResp cid = NameResp.resp (some cats) →
        cats.lookup cid = some (some nm) → (get_category_name env cid).1 = nm)
    ∧ placeholder cid = "カテゴリ" ++ cid := by
  refine ⟨?_, ?_, rfl⟩
  · cases h : env.categoryResp cid with
    | provErr => left; simp [get_category_name, h]
    | resp co =>
      cases co with
      | none => left; simp [get_category_name, h]
      | some cats =>
        cases hl : cats.lookup cid with
        | none => left; simp [get_category_name, h, hl]
        | some onm =>
          cases onm with
          | none => left; simp [get_category_name, h, hl]
          | some nm =>
            right
            exact ⟨cats, rfl, by simp [get_category_name, h, hl]⟩
  · intro cats nm he hl
    simp [get_category_name, he, hl]

/-- Witness for C7_name_lookup: a provider-supplied name is returned, and a
failing provider yields the placeholder. -/
theorem C7_name_lookup_witness :
    (get_category_name envNamed "42").1 = "Nice"
    ∧ (get_category_name envErr "42").1 = placeholder "42" :=
  ⟨(C7_name_lookup envNamed "42").2.1 [("42", some "Nice")] "Nice" rfl rfl,
   ((C7_name_lookup envErr "42").1).resolve_right
     (by rintro ⟨c, hc, _⟩; exact NameResp.noConfusion hc)⟩

/-- Claim C8, counterexample. The row built for a persisted observation drops
the source key: the in-memory result carries seven fields including source,
the persisted row only six. -/
theorem C8_counterexample :
    (obsDict obs8).map Prod.fst
      = ["date", "asin", "title", "category_id", "category_name", "rank", "source"]
    ∧ (save_ranking_data [obs8]).map (fun row => row.map Prod.fst)
      = [["date", "asin", "title", "category_id", "category_name", "rank"]]
    ∧ obs8.source = "bestsellers" := by decide

/-- Claim C8, amended. Every persisted row retains the date, asin, title,
category id, category name and rank of its observation, and the source tag is
stripped: no persisted row has a source key. -/
theorem C8_amended (results : List Obs) :
    save_ranking_data results = results.map (fun r =>
      [("date", Val.str r.date), ("asin", Val.str r.asin), ("title", Val.str r.title),
       ("category_id", Val.str r.category_id), ("category_name", Val.str r.category_name),
       ("rank", Val.int r.rank)])
    ∧ ∀ row ∈ save_ranking_data results, "source" ∉ row.map Prod.fst := by
  have hmap : save_ranking_data results = results.map (fun r =>
      [("date", Val.str r.date), ("asin", Val.str r.asin), ("title", Val.str r.title),
       ("category_id", Val.str r.category_id), ("category_name", Val.str r.category_name),
       ("rank", Val.int r.rank)]) := rfl
  refine ⟨hmap, ?_⟩
  intro row hrow
  rw [hmap] at hrow
  obtain ⟨r, _, rfl⟩ := List.mem_map.mp hrow
  simp

/-- Witness for C8_amended on a concrete salesRank-sourced observation. -/
theorem C8_amended_witness :
    save_ranking_data [obs8w] = [row8w]
    ∧ "source" ∉ row8w.map Prod.fst :=
  ⟨(C8_amended [obs8w]).1,
   (C8_amended [obs8w]).2 row8w (by decide)⟩

/-- The first loop appends exactly the filterMap of its candidate list. -/
theorem detailedFold_fst (env : Env) (asin title now : String) (tree : List TreeItem) :
    ∀ (cats : List JKey) (acc : List Obs × List Req),
      (cats.foldl (detailedStep env asin title now tree) acc).1
        = acc.1 ++ cats.filterMap (detailedObsOf env asin title now tree) := by
  intro cats
  induction cats with
  | nil => intro acc; simp
  | cons k rest ih =>
    intro acc
    rw [List.foldl_cons, List.filterMap_cons, ih]
    cases h : (get_bestseller_ranking env (keyStr k) asin).1 with
    | none => simp [detailedStep, detailedObsOf, h]
    | some r => simp [detailedStep, detailedObsOf, h]

/-- The first pass of the resolver as a filterMap over the reversed slice of
the first five category keys. -/
theorem detailedPass_fst (env : Env) (asin title now : String) (info : ProductInfo) :
    (detailedPass env asin title now info).1
      = ((info.categories.take 5).reverse).filterMap
          (detailedObsOf env asin title now info.categoryTree) := by
  unfold detailedPass
  by_cases h : info.categories.isEmpty
  · rw [if_pos h]
    have hnil : info.categories = [] := by
      cases hc : info.categories with
      | nil => rfl
      | cons a l => rw [hc] at h; simp at h
    rw [hnil]; rfl
  · rw [if_neg h, detailedFold_fst]
    simp

/-- A produced first-pass observation carries the stringified candidate key
and the bestsellers source tag. -/
theorem detailedObsOf_eq_some (env : Env) (asin title now : String)
    (tree : List TreeItem) (k : JKey) (o : Obs)
    (h : detailedObsOf env asin title now tree k = some o) :
    o.category_id = keyStr k ∧ o.source = "bestsellers" := by
  cases hr : (get_bestseller_ranking env (keyStr k) asin).1 with
  | none => simp [detailedObsOf, hr] at h
  | some r =>
    simp [detailedObsOf, hr] at h
    subst h
    exact ⟨rfl, rfl⟩

/-- Every first-pass observation has the bestsellers source and a category id
drawn from the candidate keys. -/
theorem detailed_mem (env : Env) (asin title now : String) (tree : List TreeItem)
    (l : List JKey) (o : Obs)
    (ho : o ∈ l.filterMap (detailedObsOf env asin title now tree)) :
    o.source = "bestsellers" ∧ o.category_id ∈ l.map keyStr := by
  obtain ⟨k, hk, hsome⟩ := List.mem_filterMap.mp ho
  obtain ⟨hc, hs⟩ := detailedObsOf_eq_some env asin title now tree k o hsome
  exact ⟨hs, by rw [hc]; exact List.mem_map_of_mem _ hk⟩

/-- The category ids of the first-pass observations form a sublist of the
stringified candidate list. -/
theorem detailed_cids_sublist (env : Env) (asin title now : String)
    (tree : List TreeItem) :
    ∀ l : List JKey,
      ((l.filterMap (detailedObsOf env asin title now tree)).map
        (fun o => o.category_id)).Sublist (l.map keyStr) := by
  intro l
  induction l with
  | nil => simp
  | cons k rest ih =>
    cases h : detailedObsOf env asin title now tree k with
    | none =>
      simp only [List.filterMap_cons, h, List.map_cons]
      exact ih.cons (keyStr k)
    | some o =>
      simp only [List.filterMap_cons, h, List.map_cons]
      rw [(detailedObsOf_eq_some env asin title now tree k o h).1]
      exact ih.cons₂ (keyStr k)

/-- Second-pass fold invariant: the fold only appends salesRank observations
with positive rank and category ids that are new relative to the accumulator,
pairwise distinct, and drawn from the salesRanks keys. -/
theorem aggFold_spec (env : Env) (asin title now : String) (tree : List TreeItem) :
    ∀ (entries : List (JKey × Int)) (acc : List Obs × List Req),
      ∃ t : List Obs,
        (entries.foldl (aggStep env asin title now tree) acc).1 = acc.1 ++ t
        ∧ (t.map (fun o => o.category_id)).Nodup
        ∧ ∀ o ∈ t, o.source = "salesRank" ∧ o.rank > 0
            ∧ o.category_id ∉ acc.1.map (fun x => x.category_id)
            ∧ o.category_id ∈ entries.map (fun kv => keyStr kv.1) := by
  intro entries
  induction entries with
  | nil =>
    intro acc
    exact ⟨[], by simp, by simp, by simp⟩
  | cons kv rest ih =>
    intro acc
    rw [List.foldl_cons]
    by_cases hdup : acc.1.any (fun r => r.category_id == keyStr kv.1)
    · have hstep : aggStep env asin title now tree acc kv = acc := by
        simp [aggStep, hdup]
      rw [hstep]
      obtain ⟨t, h1, h2, h3⟩ := ih acc
      refine ⟨t, h1, h2, ?_⟩
      intro o ho
      obtain ⟨hs, hr, hni, hin⟩ := h3 o ho
      exact ⟨hs, hr, hni, by rw [List.map_cons]; exact List.mem_cons_of_mem _ hin⟩
    · by_cases hpos : kv.2 > 0
      · have hstep : aggStep env asin title now tree acc kv
            = (acc.1 ++ [aggObsOf env asin title now tree kv],
               acc.2 ++ (resolveName env tree (keyStr kv.1)).2) := by
          simp [aggStep, aggObsOf, hdup, hpos]
        rw [hstep]
        obtain ⟨t, h1, h2, h3⟩ :=
          ih (acc.1 ++ [aggObsOf env asin title now tree kv],
              acc.2 ++ (resolveName env tree (keyStr kv.1)).2)
        refine ⟨aggObsOf env asin title now tree kv :: t, ?_, ?_, ?_⟩
        · rw [h1]; simp
        · rw [List.map_cons, List.nodup_cons]
          refine ⟨?_, h2⟩
          intro hmem
          obtain ⟨o, ho, hco⟩ := List.mem_map.mp hmem
          apply (h3 o ho).2.2.1
          rw [List.map_append]
          exact List.mem_append_right _ (by simp [hco])
        · intro o ho
          rcases List.mem_cons.mp ho with rfl | ho'
          · refine ⟨rfl, hpos, ?_, ?_⟩
            · intro hmem
              obtain ⟨x, hx, hxc⟩ := List.mem_map.mp hmem
              apply hdup
              rw [List.any_eq_true]
              exact ⟨x, hx, by rw [beq_iff_eq]; exact hxc⟩
            · rw [List.map_cons]
              exact List.mem_cons_self _ _
          · obtain ⟨hs, hr, hni, hin⟩ := h3 o ho'
            refine ⟨hs, hr, ?_, ?_⟩
            · intro hmem
              exact hni (by rw [List.map_append]; exact List.mem_append_left _ hmem)
            · rw [List.map_cons]; exact List.mem_cons_of_mem _ hin
      · have hstep : aggStep env asin title now tree acc kv
            = (acc.1, acc.2 ++ (resolveName env tree (keyStr kv.1)).2) := by
          simp [aggStep, hdup, hpos]
        rw [hstep]
        obtain ⟨t, h1, h2, h3⟩ :=
          ih (acc.1, acc.2 ++ (resolveName env tree (keyStr kv.1)).2)
        refine ⟨t, h1, h2, ?_⟩
        intro o ho
        obtain ⟨hs, hr, hni, hin⟩ := h3 o ho
        exact ⟨hs, hr, hni, by rw [List.map_cons]; exact List.mem_cons_of_mem _ hin⟩

/-- The second pass as a whole satisfies the fold invariant. -/
theorem aggPass_spec (env : Env) (asin title now : String) (info : ProductInfo)
    (acc : List Obs × List Req) :
    ∃ t : List Obs,
      (aggPass env asin title now info acc).1 = acc.1 ++ t
      ∧ (t.map (fun o => o.category_id)).Nodup
      ∧ ∀ o ∈ t, o.source = "salesRank" ∧ o.rank > 0
          ∧ o.category_id ∉ acc.1.map (fun x => x.category_id)
          ∧ o.category_id ∈ info.salesRanks.map (fun kv => keyStr kv.1) := by
  unfold aggPass
  by_cases h : info.salesRanks.isEmpty
  · rw [if_pos h]
    exact ⟨[], by simp, by simp, by simp⟩
  · rw [if_neg h]
    exact aggFold_spec env asin title now info.categoryTree info.salesRanks acc

/-- The resolver output decomposes into the first-pass observations followed
by a deduplicated salesRank tail. -/
theorem resolveObs_fst (env : Env) (asin now : String) (info : ProductInfo) :
    ∃ t : List Obs,
      (resolveObs env asin now info).1
        = ((info.categories.take 5).reverse).filterMap
            (detailedObsOf env asin info.title now info.categoryTree) ++ t
      ∧ (t.map (fun o => o.category_id)).Nodup
      ∧ ∀ o ∈ t, o.source = "salesRank" ∧ o.rank > 0
          ∧ o.category_id ∉ (((info.categories.take 5).reverse).filterMap
              (detailedObsOf env asin info.title now info.categoryTree)).map
                (fun x => x.category_id)
          ∧ o.category_id ∈ info.salesRanks.map (fun kv => keyStr kv.1) := by
  unfold resolveObs
  obtain ⟨t, h1, h2, h3⟩ := aggPass_spec env asin info.title now info
    (detailedPass env asin info.title now info)
  rw [detailedPass_fst] at h1 h3
  exact ⟨t, h1, h2, h3⟩

/-- Claim C3, counterexample. A provider response repeating the same category
id among the candidate slice makes the resolver emit two observations with the
same categoryId, so the at-most-one-per-categoryId invariant fails on such a
response. -/
theorem C3_counterexample :
    (resolveObs envDup "ASIN1" "now" infoDup).1.map (fun o => o.category_id)
      = ["100", "100"]
    ∧ ¬ ((resolveObs envDup "ASIN1" "now" infoDup).1.map
        (fun o => o.category_id)).Nodup := by decide

/-- Claim C3, amended. Whenever the stringified candidate slice (the reversed
first five category keys) has no duplicate, the resolver emits at most one
observation per categoryId; unconditionally, every salesRank observation has
positive rank and is the unique observation for its categoryId, so no
categoryId ever carries both a DetailedList and an AggregateStat observation
and the fallback fires only where no detailed observation exists. -/
theorem C3_amended (env : Env) (asin now : String) (info : ProductInfo) :
    ((((info.categories.take 5).reverse).map keyStr).Nodup →
      ((resolveObs env asin now info).1.map (fun o => o.category_id)).Nodup)
    ∧ ∀ o ∈ (resolveObs env asin now info).1, o.source = "salesRank" →
        o.rank > 0
        ∧ ∀ o' ∈ (resolveObs env asin now info).1,
            o'.category_id = o.category_id → o' = o := by
  obtain ⟨t, h1, h2, h3⟩ := resolveObs_fst env asin now info
  constructor
  · intro hnodup
    rw [h1, List.map_append, List.nodup_append]
    refine ⟨?_, h2, ?_⟩
    · exact List.Nodup.sublist
        (detailed_cids_sublist env asin info.title now info.categoryTree _) hnodup
    · intro a ha hat
      obtain ⟨o, ho, hoc⟩ := List.mem_map.mp hat
      exact (h3 o ho).2.2.1 (hoc ▸ ha)
  · intro o ho hos
    rw [h1] at ho
    rcases List.mem_append.mp ho with hod | hot
    · have hsrc := (detailed_mem env asin info.title now info.categoryTree _ o hod).1
      rw [hsrc] at hos
      exact absurd hos (by decide)
    · refine ⟨(h3 o hot).2.1, ?_⟩
      intro o' ho' hco
      rw [h1] at ho'
      rcases List.mem_append.mp ho' with hod' | hot'
      · exfalso
        exact (h3 o hot).2.2.1
          (hco ▸ List.mem_map_of_mem (fun x => x.category_id) hod')
      · exact List.inj_on_of_nodup_map h2 hot' hot hco

/-- Witness for C3_amended: a concrete mixed run with distinct candidates has
pairwise distinct category ids, and its category-3 aggregate observation has
positive rank. -/
theorem C3_amended_witness :
    ((resolveObs envN "ASIN1" "n" infoN).1.map (fun o => o.category_id)).Nodup
    ∧ oC3.rank > 0 :=
  ⟨(C3_amended envN "ASIN1" "n" infoN).1 (by decide),
   ((C3_amended envN "ASIN1" "n" infoN).2 oC3 (by decide) (by decide)).1⟩

/-- With an empty category tree the per-candidate name resolution is exactly
the single-id provider lookup. -/
theorem resolveName_nil (env : Env) (cid : String) :
    resolveName env [] cid = get_category_name env cid := rfl

/-- Exact description of the second-pass fold when every key is fresh and
every aggregate value positive: one observation and one single-id category
request per entry. -/
theorem aggFold_exact (env : Env) (asin title now : String) :
    ∀ (entries : List (JKey × Int)) (acc : List Obs × List Req),
      ((entries.map (fun kv => keyStr kv.1)).Nodup) →
      (∀ kv ∈ entries, ∀ o ∈ acc.1, o.category_id ≠ keyStr kv.1) →
      (∀ kv ∈ entries, kv.2 > 0) →
      entries.foldl (aggStep env asin title now []) acc
        = (acc.1 ++ entries.map (aggObsOf env asin title now []),
           acc.2 ++ entries.map (fun kv => Req.category (keyStr kv.1))) := by
  intro entries
  induction entries with
  | nil => intro acc _ _ _; simp
  | cons kv rest ih =>
    intro acc hnodup hdisj hpos
    rw [List.foldl_cons]
    have hdup : ¬ (acc.1.any (fun r => r.category_id == keyStr kv.1) = true) := by
      rw [List.any_eq_true]
      rintro ⟨x, hx, hxc⟩
      rw [beq_iff_eq] at hxc
      exact hdisj kv (List.mem_cons_self _ _) x hx hxc
    have hstep : aggStep env asin title now [] acc kv
        = (acc.1 ++ [aggObsOf env asin title now [] kv],
           acc.2 ++ [Req.category (keyStr kv.1)]) := by
      simp [aggStep, aggObsOf, resolveName, get_category_name, hdup,
        hpos kv (List.mem_cons_self _ _)]
    rw [hstep]
    have hknotin : keyStr kv.1 ∉ rest.map (fun kv => keyStr kv.1) := by
      rw [List.map_cons, List.nodup_cons] at hnodup
      exact hnodup.1
    have htl := ih (acc.1 ++ [aggObsOf env asin title now [] kv],
        acc.2 ++ [Req.category (keyStr kv.1)])
      (by rw [List.map_cons, List.nodup_cons] at hnodup; exact hnodup.2)
      (by
        intro kv' hkv' o ho
        rcases List.mem_append.mp ho with hoa | hob
        · exact hdisj kv' (List.mem_cons_of_mem _ hkv') o hoa
        · have : o = aggObsOf env asin title now [] kv := by
            simpa using hob
          rw [this]
          intro hceq
          apply hknotin
          have hmem : keyStr kv'.1 ∈ rest.map (fun kv => keyStr kv.1) :=
            List.mem_map_of_mem _ hkv'
          rw [← hceq] at hmem
          exact hmem)
      (fun kv' hkv' => hpos kv' (List.mem_cons_of_mem _ hkv'))
    rw [htl]
    simp

/-- Claim C5, counterexample. Resolving a product with twelve aggregate
category entries (none named by the tree) issues twelve single-id category
name requests, not the two batched requests the claim asks for. -/
theorem C5_counterexample :
    ((resolveObs envErr "A" "now" info12).2.filter isCategoryReq).length = 12
    ∧ ((resolveObs envErr "A" "now" info12).2.filter isCategoryReq).length ≠ 2 := by
  decide

/-- Claim C5, amended. The name lookup is unbatched: over a run of fresh
category ids, the resolver issues exactly one single-id category request per
unresolved id (n requests for n ids), and every emitted observation carries
the name the single-id lookup returned (provider name or placeholder). -/
theorem C5_amended (env : Env) (asin now : String) (info : ProductInfo)
    (hcats : info.categories = []) (htree : info.categoryTree = [])
    (hnodup : (info.salesRanks.map (fun kv => keyStr kv.1)).Nodup)
    (hpos : ∀ kv ∈ info.salesRanks, kv.2 > 0) :
    (resolveObs env asin now info).2
      = info.salesRanks.map (fun kv => Req.category (keyStr kv.1))
    ∧ (resolveObs env asin now info).1.map (fun o => o.category_name)
      = info.salesRanks.map (fun kv => (get_category_name env (keyStr kv.1)).1)
    ∧ ((resolveObs env asin now info).2.filter isCategoryReq).length
      = info.salesRanks.length := by
  have hdet : detailedPass env asin info.title now info = ([], []) := by
    simp [detailedPass, hcats]
  have hres : resolveObs env asin now info
      = (info.salesRanks.map (aggObsOf env asin info.title now []),
         info.salesRanks.map (fun kv => Req.category (keyStr kv.1))) := by
    unfold resolveObs aggPass
    rw [hdet, htree]
    by_cases hsr : info.salesRanks.isEmpty
    · have hnil : info.salesRanks = [] := by
        cases h : info.salesRanks with
        | nil => rfl
        | cons a l => rw [h] at hsr; simp at hsr
      rw [if_pos hsr, hnil]
      rfl
    · rw [if_neg hsr]
      have := aggFold_exact env asin info.title now info.salesRanks ([], [])
        hnodup (by intro kv _ o ho; simp at ho) hpos
      rw [this]
      simp
  rw [hres]
  refine ⟨rfl, ?_, ?_⟩
  · rw [List.map_map]
    rfl
  · have hfil : (info.salesRanks.map
        (fun kv => Req.category (keyStr kv.1))).filter isCategoryReq
        = info.salesRanks.map (fun kv => Req.category (keyStr kv.1)) := by
      rw [List.filter_eq_self]
      intro a ha
      obtain ⟨kv, _, rfl⟩ := List.mem_map.mp ha
      rfl
    rw [hfil, List.length_map]

/-- Witness for C5_amended at the twelve-entry fixture. -/
theorem C5_amended_witness :
    (resolveObs envErr "A" "now" info12).2
      = info12.salesRanks.map (fun kv => Req.category (keyStr kv.1)) :=
  (C5_amended envErr "A" "now" info12 rfl rfl (by decide) (by decide)).1

/-- Splitting a list length by a Boolean predicate. -/
theorem length_filter_not_add {α : Type} (p : α → Bool) (l : List α) :
    (l.filter (fun a => !(p a))).length + (l.filter p).length = l.length := by
  induction l with
  | nil => rfl
  | cons a l ih =>
    cases h : p a <;> simp [List.filter_cons, h] <;> omega

/-- The orchestrator loop accumulates per-product results, counters and
requests independently across the product list. -/
theorem loop_spec (env : Env) (now : String) :
    ∀ (ps : List Product) (st : LoopState), (∀ p ∈ ps, p.asin ≠ "") →
      ps.foldl (processProduct env now) st
        = { all_results := st.all_results
              ++ (ps.filter (fun p => !(productFails env now p))).bind
                  (productResults env now),
            successCount := st.successCount
              + (ps.filter (fun p => !(productFails env now p))).length,
            failCount := st.failCount + (ps.filter (productFails env now)).length,
            reqs := st.reqs
              ++ ps.bind (fun p => (fetch_ranking_for_product env p.asin now).2) } := by
  intro ps
  induction ps with
  | nil => intro st _; simp
  | cons p rest ih =>
    intro st hasin
    have hpa : p.asin ≠ "" := hasin p (List.mem_cons_self _ _)
    have hrest : ∀ q ∈ rest, q.asin ≠ "" :=
      fun q hq => hasin q (List.mem_cons_of_mem _ hq)
    rw [List.foldl_cons]
    cases hfr : (fetch_ranking_for_product env p.asin now).1 with
    | none =>
      have hfail : productFails env now p = true := by simp [productFails, hfr]
      have hstep : processProduct env now st p
          = { st with failCount := st.failCount + 1,
                      reqs := st.reqs ++ (fetch_ranking_for_product env p.asin now).2 } := by
        simp [processProduct, hpa, hfr]
      rw [hstep, ih _ hrest]
      simp [List.filter_cons, hfail, List.append_assoc]
      omega
    | some res =>
      by_cases hemp : res.results.isEmpty
      · have hfail : productFails env now p = true := by
          simp [productFails, hfr, hemp]
        have hstep : processProduct env now st p
            = { st with failCount := st.failCount + 1,
                        reqs := st.reqs ++ (fetch_ranking_for_product env p.asin now).2 } := by
          simp [processProduct, hpa, hfr, hemp]
        rw [hstep, ih _ hrest]
        simp [List.filter_cons, hfail, List.append_assoc]
        omega
      · have hfail : productFails env now p = false := by
          simp [productFails, hfr, hemp]
        have hres : productResults env now p = res.results := by
          simp [productResults, hfr]
        have hstep : processProduct env now st p
            = { st with all_results := st.all_results ++ res.results,
                        successCount := st.successCount + 1,
                        reqs := st.reqs ++ (fetch_ranking_for_product env p.asin now).2 } := by
          simp [processProduct, hpa, hfr, hemp]
        rw [hstep, ih _ hrest]
        simp [List.filter_cons, hfail, hres, List.append_assoc]
        omega

/-- Claim C4, counterexample. A product whose metadata fetch succeeds but
yields no observation does not fail resolution, yet the run counts it as
failed and reports zero successes. -/
theorem C4_counterexample :
    (fetch_ranking_for_product env4 "A4" "now").1 ≠ none
    ∧ (fetch_all_rankings env4 cfg4 [{ asin := "A4", title := "" }] [] "now" "ht").successCount
      = 0
    ∧ (fetch_all_rankings env4 cfg4 [{ asin := "A4", title := "" }] [] "now" "ht").failCount
      = 1 := by decide

/-- Claim C4, amended. Over tracked products with nonempty identifiers, with M
the number of products whose resolution fails or yields zero observations: the
run reports exactly N − M successes and M failures, the counters sum to N (no
failure aborts the loop), the returned observations are exactly those of the
counted-successful products in order, and persistence receives exactly those
observations whenever any exist. -/
theorem C4_amended (env : Env) (cfg : Config) (products : List Product) (df : List Obs)
    (now headerTime : String) (hkey : cfg.api_key ≠ "") (hne : products ≠ [])
    (hasin : ∀ p ∈ products, p.asin ≠ "") :
    (fetch_all_rankings env cfg products df now headerTime).failCount
      = (products.filter (productFails env now)).length
    ∧ (fetch_all_rankings env cfg products df now headerTime).successCount
      = products.length - (products.filter (productFails env now)).length
    ∧ (fetch_all_rankings env cfg products df now headerTime).successCount
      + (fetch_all_rankings env cfg products df now headerTime).failCount
      = products.length
    ∧ (fetch_all_rankings env cfg products df now headerTime).results
      = (products.filter (fun p => !(productFails env now p))).bind
          (productResults env now)
    ∧ (fetch_all_rankings env cfg products df now headerTime).saved
      = (if (fetch_all_rankings env cfg products df now headerTime).results = [] then []
         else save_ranking_data
           ((products.filter (fun p => !(productFails env now p))).bind
             (productResults env now))) := by
  have hst := loop_spec env now products
    { all_results := [], successCount := 0, failCount := 0, reqs := [] } hasin
  have hout : fetch_all_rankings env cfg products df now headerTime
      = { results := (products.filter (fun p => !(productFails env now p))).bind
            (productResults env now),
          successCount := (products.filter (fun p => !(productFails env now p))).length,
          failCount := (products.filter (productFails env now)).length,
          saved := if ((products.filter (fun p => !(productFails env now p))).bind
              (productResults env now)) = [] then []
            else save_ranking_data
              ((products.filter (fun p => !(productFails env now p))).bind
                (productResults env now)),
          notification := if ((products.filter (fun p => !(productFails env now p))).bind
              (productResults env now)) = [] then none
            else send_slack_notification cfg.slack_url
              ((products.filter (fun p => !(productFails env now p))).bind
                (productResults env now)) df headerTime,
          reqs := products.bind
            (fun p => (fetch_ranking_for_product env p.asin now).2) } := by
    unfold fetch_all_rankings
    rw [if_neg hkey, if_neg hne]
    simp only [hst]
    simp
  have hlen := length_filter_not_add (productFails env now) products
  rw [hout]
  refine ⟨rfl, ?_, ?_, rfl, rfl⟩
  · show (products.filter (fun p => !(productFails env now p))).length
      = products.length - (products.filter (productFails env now)).length
    omega
  · show (products.filter (fun p => !(productFails env now p))).length
      + (products.filter (productFails env now)).length = products.length
    omega

/-- Witness for C4_amended: one resolving and one unknown product give counts
one and one, summing to two. -/
theorem C4_amended_witness :
    (fetch_all_rankings envW4 cfgW4 [pA, pB] [] "n" "h").successCount
      + (fetch_all_rankings envW4 cfgW4 [pA, pB] [] "n" "h").failCount = 2
    ∧ (fetch_all_rankings envW4 cfgW4 [pA, pB] [] "n" "h").failCount
      = ([pA, pB].filter (productFails envW4 "n")).length :=
  ⟨(C4_amended envW4 cfgW4 [pA, pB] [] "n" "h" (by decide) (by decide)
      (by decide)).2.2.1,
   (C4_amended envW4 cfgW4 [pA, pB] [] "n" "h" (by decide) (by decide)
      (by decide)).1⟩

/-- Folding block appends equals one chunk per element. -/
theorem foldl_append_chunks {α β : Type} (f : α → List β) :
    ∀ (l : List α) (init : List β),
      l.foldl (fun bs a => bs ++ f a) init = init ++ l.bind f := by
  intro l
  induction l with
  | nil => intro init; simp
  | cons a rest ih =>
    intro init
    rw [List.foldl_cons, ih]
    simp

/-- The by_product fold: existing groups collect their matching observations;
observations with fresh asins open groups as described by groupNew. -/
theorem groupFold_eq :
    ∀ (rs : List Obs) (acc : List ProdGroup),
      rs.foldl groupStep acc
        = acc.map (fun g =>
            { g with rankings := g.rankings ++ rs.filter (fun r => r.asin == g.asin) })
          ++ groupNew (acc.map (fun g => g.asin)) rs := by
  intro rs
  induction rs with
  | nil =>
    intro acc
    simp [groupNew]
  | cons r rest ih =>
    intro acc
    rw [List.foldl_cons]
    by_cases h : acc.any (fun g => g.asin == r.asin)
    · have hmem : r.asin ∈ acc.map (fun g => g.asin) := by
        rw [List.any_eq_true] at h
        obtain ⟨g, hg, he⟩ := h
        rw [beq_iff_eq] at he
        exact he ▸ List.mem_map_of_mem _ hg
      have hstep : groupStep acc r = acc.map (fun g =>
          if g.asin == r.asin then { g with rankings := g.rankings ++ [r] } else g) := by
        simp [groupStep, h]
      rw [hstep, ih]
      have hkeys : (acc.map (fun g =>
          if g.asin == r.asin then { g with rankings := g.rankings ++ [r] } else g)).map
            (fun g => g.asin) = acc.map (fun g => g.asin) := by
        rw [List.map_map]
        apply List.map_congr_left
        intro g _
        by_cases hga : g.asin = r.asin <;> simp [hga]
      rw [hkeys]
      have hgn : groupNew (acc.map (fun g => g.asin)) (r :: rest)
          = groupNew (acc.map (fun g => g.asin)) rest := by
        simp only [groupNew]
        rw [if_pos hmem]
      rw [hgn]
      congr 1
      rw [List.map_map]
      apply List.map_congr_left
      intro g _
      by_cases hga : g.asin = r.asin
      · have hba' : (r.asin == g.asin) = true := by rw [beq_iff_eq]; exact hga.symm
        simp [hga, hba', List.filter_cons, List.append_assoc]
      · have hba' : (r.asin == g.asin) = false := by
          rw [beq_eq_false_iff_ne]; exact fun e => hga e.symm
        simp [hga, hba', List.filter_cons]
    · have hnmem : r.asin ∉ acc.map (fun g => g.asin) := by
        intro hmem
        obtain ⟨g, hg, he⟩ := List.mem_map.mp hmem
        exact h (by rw [List.any_eq_true]; exact ⟨g, hg, by rw [beq_iff_eq]; exact he⟩)
      have hstep : groupStep acc r = acc ++ [newGroup r] := by
        simp [groupStep, newGroup, h]
      rw [hstep, ih]
      have hkeys2 : (acc ++ [newGroup r]).map (fun g => g.asin)
          = acc.map (fun g => g.asin) ++ [r.asin] := by simp [newGroup]
      rw [hkeys2, List.map_append]
      have hgn : groupNew (acc.map (fun g => g.asin)) (r :: rest)
          = { asin := r.asin, title := r.title,
              rankings := r :: rest.filter (fun x => x.asin == r.asin) }
            :: groupNew (acc.map (fun g => g.asin) ++ [r.asin]) rest := by
        simp only [groupNew]
        rw [if_neg hnmem]
      rw [hgn]
      rw [List.append_assoc]
      congr 1
      apply List.map_congr_left
      intro g hg
      have hga : g.asin ≠ r.asin := by
        intro he
        exact hnmem (he ▸ List.mem_map_of_mem _ hg)
      have hba' : (r.asin == g.asin) = false := by
        rw [beq_eq_false_iff_ne]; exact fun e => hga e.symm
      simp [List.filter_cons, hba']

/-- The keys of the fresh groups are the fresh asins in first-seen order. -/
theorem groupNew_asins :
    ∀ (rs : List Obs) (seen : List String),
      (groupNew seen rs).map (fun g => g.asin)
        = firstSeenFrom seen (rs.map (fun r => r.asin)) := by
  intro rs
  induction rs with
  | nil => intro seen; simp [groupNew, firstSeenFrom]
  | cons r rest ih =>
    intro seen
    by_cases h : r.asin ∈ seen
    · simp only [groupNew, List.map_cons, firstSeenFrom, if_pos h]
      exact ih seen
    · simp only [groupNew, List.map_cons, firstSeenFrom, if_neg h, List.map_cons]
      rw [ih (seen ++ [r.asin])]

/-- Each fresh group collects exactly the observations carrying its asin, and
its asin was not previously seen. -/
theorem groupNew_groups :
    ∀ (rs : List Obs) (seen : List String) (g : ProdGroup), g ∈ groupNew seen rs →
      g.rankings = rs.filter (fun x => x.asin == g.asin) ∧ g.asin ∉ seen := by
  intro rs
  induction rs with
  | nil => intro seen g hg; simp [groupNew] at hg
  | cons r rest ih =>
    intro seen g hg
    by_cases h : r.asin ∈ seen
    · rw [show groupNew seen (r :: rest) = groupNew seen rest from by
        simp only [groupNew]; rw [if_pos h]] at hg
      obtain ⟨h1, h2⟩ := ih seen g hg
      refine ⟨?_, h2⟩
      rw [h1, List.filter_cons]
      have hba : (r.asin == g.asin) = false := by
        rw [beq_eq_false_iff_ne]; intro he; exact h2 (he ▸ h)
      simp [hba]
    · rw [show groupNew seen (r :: rest)
          = { asin := r.asin, title := r.title,
              rankings := r :: rest.filter (fun x => x.asin == r.asin) }
            :: groupNew (seen ++ [r.asin]) rest from by
        simp only [groupNew]; rw [if_neg h]] at hg
      rcases List.mem_cons.mp hg with rfl | hg'
      · refine ⟨?_, h⟩
        simp [List.filter_cons]
      · obtain ⟨h1, h2⟩ := ih (seen ++ [r.asin]) g hg'
        have hne : g.asin ≠ r.asin := by
          intro he
          exact h2 (by rw [he]; exact List.mem_append_right _ (List.mem_cons_self _ _))
        refine ⟨?_, fun hs => h2 (List.mem_append_left _ hs)⟩
        rw [h1, List.filter_cons]
        have hba : (r.asin == g.asin) = false := by
          rw [beq_eq_false_iff_ne]; exact fun e => hne e.symm
        simp [hba]

/-- The by_product dict build coincides with the fresh-group description. -/
theorem by_product_eq (rs : List Obs) : by_product rs = groupNew [] rs := by
  unfold by_product
  rw [groupFold_eq]
  simp

/-- Claim C9. When a webhook is configured and results exist, the notifier
posts the built digest; the digest is one header followed, per product group,
by a divider and exactly one section; products appear in first-seen order of
the input; each group holds exactly the observations carrying its asin, its
section renders one line per observation after the title and link lines; and
the tier badge depends only on the rank through the fixed 10/50/100
thresholds. -/
theorem C9_digest (webhook_url headerTime : String)
    (all_results df_hist : List Obs)
    (hurl : webhook_url ≠ "") (hres : all_results ≠ []) :
    send_slack_notification webhook_url all_results df_hist headerTime
      = some (buildBlocks all_results headerTime)
    ∧ buildBlocks all_results headerTime
      = Block.header ("📊 ランキングレポート (" ++ headerTime ++ ")")
        :: (by_product all_results).bind
            (fun g => [Block.divider, Block.sec (String.intercalate "\n" (groupLines g))])
    ∧ (by_product all_results).map (fun g => g.asin)
      = firstSeen (all_results.map (fun r => r.asin))
    ∧ (∀ g ∈ by_product all_results,
        g.rankings = all_results.filter (fun r => r.asin == g.asin)
        ∧ groupLines g
          = ["*" ++ truncTitle g.title ++ "*",
             "<https://www.amazon.co.jp/dp/" ++ g.asin ++ "|Amazon>", ""]
            ++ g.rankings.map obsLine)
    ∧ (∀ q : Int,
        (q ≤ 10 → rankEmoji q = "🥇")
        ∧ (11 ≤ q ∧ q ≤ 50 → rankEmoji q = "🥈")
        ∧ (51 ≤ q ∧ q ≤ 100 → rankEmoji q = "🥉")
        ∧ (101 ≤ q → rankEmoji q = "📍")) := by
  refine ⟨?_, ?_, ?_, ?_, ?_⟩
  · unfold send_slack_notification
    rw [if_neg hurl, if_neg hres]
  · unfold buildBlocks
    rw [foldl_append_chunks]
    simp
  · rw [by_product_eq, groupNew_asins]
    rfl
  · intro g hg
    rw [by_product_eq] at hg
    exact ⟨(groupNew_groups all_results [] g hg).1, rfl⟩
  · intro q
    refine ⟨?_, ?_, ?_, ?_⟩
    · intro h
      unfold rankEmoji
      rw [if_pos h]
    · rintro ⟨h1, h2⟩
      unfold rankEmoji
      rw [if_neg (by omega), if_pos (by omega)]
    · rintro ⟨h1, h2⟩
      unfold rankEmoji
      rw [if_neg (by omega), if_neg (by omega), if_pos (by omega)]
    · intro h
      unfold rankEmoji
      rw [if_neg (by omega), if_neg (by omega), if_neg (by omega)]

/-- Witness for C9_digest at a two-product three-observation digest. -/
theorem C9_digest_witness :
    send_slack_notification "https://w" res9 [] "ht" = some (buildBlocks res9 "ht")
    ∧ (by_product res9).map (fun g => g.asin)
      = firstSeen (res9.map (fun r => r.asin)) :=
  ⟨(C9_digest "https://w" "ht" res9 [] (by decide) (by decide)).1,
   (C9_digest "https://w" "ht" res9 [] (by decide) (by decide)).2.2.1⟩

/-- Canonicalisation preserves the string form of a key. -/
theorem keyStr_normKey (k : JKey) : keyStr (normKey k) = keyStr k := rfl

/-- Name resolution is invariant under canonicalising the tree keys. -/
theorem resolveName_normTree (env : Env) (tree : List TreeItem) (cid : String) :
    resolveName env (tree.map normTree) cid = resolveName env tree cid := by
  unfold resolveName
  rw [List.find?_map]
  have hpred : ((fun t => keyStr t.catId == cid) ∘ normTree)
      = (fun t : TreeItem => keyStr t.catId == cid) := rfl
  rw [hpred]
  cases h : tree.find? (fun t => keyStr t.catId == cid) with
  | none => rfl
  | some t => rfl

/-- One candidate step is invariant under canonicalising the keys. -/
theorem detailedStep_norm (env : Env) (asin title now : String) (tree : List TreeItem)
    (acc : List Obs × List Req) (k : JKey) :
    detailedStep env asin title now (tree.map normTree) acc (normKey k)
      = detailedStep env asin title now tree acc k := by
  simp only [detailedStep, keyStr_normKey, resolveName_normTree]

/-- One salesRanks step is invariant under canonicalising the keys. -/
theorem aggStep_norm (env : Env) (asin title now : String) (tree : List TreeItem)
    (acc : List Obs × List Req) (kv : JKey × Int) :
    aggStep env asin title now (tree.map normTree) acc (normKey kv.1, kv.2)
      = aggStep env asin title now tree acc kv := by
  simp only [aggStep, keyStr_normKey, resolveName_normTree]

/-- The first pass is invariant under canonicalising the keys. -/
theorem detailedPass_norm (env : Env) (asin title now : String) (info : ProductInfo) :
    detailedPass env asin title now (normInfo info)
      = detailedPass env asin title now info := by
  have h1 : (normInfo info).categories = info.categories.map normKey := rfl
  have h2 : (normInfo info).categoryTree = info.categoryTree.map normTree := rfl
  unfold detailedPass
  rw [h1, h2]
  rw [show (info.categories.map normKey).isEmpty = info.categories.isEmpty from by
    cases info.categories <;> rfl]
  by_cases h : info.categories.isEmpty
  · rw [if_pos h, if_pos h]
  · rw [if_neg h, if_neg h]
    have h3 : ((info.categories.map normKey).take 5).reverse
        = ((info.categories.take 5).reverse).map normKey := by
      rw [← List.map_take, ← List.map_reverse]
    rw [h3, List.foldl_map]
    congr 1
    funext acc k
    exact detailedStep_norm env asin title now info.categoryTree acc k

/-- The second pass is invariant under canonicalising the keys. -/
theorem aggPass_norm (env : Env) (asin title now : String) (info : ProductInfo)
    (acc : List Obs × List Req) :
    aggPass env asin title now (normInfo info) acc
      = aggPass env asin title now info acc := by
  have h1 : (normInfo info).salesRanks
      = info.salesRanks.map (fun kv => (normKey kv.1, kv.2)) := rfl
  have h2 : (normInfo info).categoryTree = info.categoryTree.map normTree := rfl
  unfold aggPass
  rw [h1, h2]
  rw [show (info.salesRanks.map (fun kv => (normKey kv.1, kv.2))).isEmpty
      = info.salesRanks.isEmpty from by cases info.salesRanks <;> rfl]
  by_cases h : info.salesRanks.isEmpty
  · rw [if_pos h, if_pos h]
  · rw [if_neg h, if_neg h, List.foldl_map]
    congr 1
    funext a kv
    exact aggStep_norm env asin title now info.categoryTree a kv

/-- Claim C10. Every observation of the resolver carries a stringified
category id — canonicalising every provider key to its string form changes
neither the observations nor the requests — and each emitted category id is
the string form of a key of the provider response (a candidate entry or a
salesRanks key). -/
theorem C10_string_keys (env : Env) (asin now : String) (info : ProductInfo) :
    resolveObs env asin now (normInfo info) = resolveObs env asin now info
    ∧ ∀ o ∈ (resolveObs env asin now info).1,
        o.category_id ∈ info.categories.map keyStr
        ∨ o.category_id ∈ info.salesRanks.map (fun kv => keyStr kv.1) := by
  constructor
  · unfold resolveObs
    have htitle : (normInfo info).title = info.title := rfl
    rw [htitle, detailedPass_norm, aggPass_norm]
  · intro o ho
    obtain ⟨t, h1, _, h3⟩ := resolveObs_fst env asin now info
    rw [h1] at ho
    rcases List.mem_append.mp ho with hod | hot
    · left
      have hmem := (detailed_mem env asin info.title now info.categoryTree _ o hod).2
      obtain ⟨k, hk, hkeq⟩ := List.mem_map.mp hmem
      have hk' : k ∈ info.categories :=
        List.take_subset 5 info.categories (List.mem_reverse.mp hk)
      rw [← hkeq]
      exact List.mem_map_of_mem _ hk'
    · right
      exact (h3 o hot).2.2.2

/-- Witness for C10_string_keys on a response mixing an integer key with its
string twin. -/
theorem C10_string_keys_witness :
    resolveObs envMix "A" "n" (normInfo infoMix) = resolveObs envMix "A" "n" infoMix
    ∧ (oMix.category_id ∈ infoMix.categories.map keyStr
        ∨ oMix.category_id ∈ infoMix.salesRanks.map (fun kv => keyStr kv.1)) :=
  ⟨(C10_string_keys envMix "A" "n" infoMix).1,
   (C10_string_keys envMix "A" "n" infoMix).2 oMix (by decide)⟩

end AmazonRank
